import Mathlib

/-
Verification development for the build-configuration detection and
patch/restore subsystem of a static-site deployment tool.

The embedded code consists of three cooperating pieces:
  BuildDetector      - classifies a project directory into a BuildProfile,
  ConfigParser       - pure text transformations used to patch config files,
  BuildConfigurer    - the configure and restore state machine over the
                       filesystem together with its record of originals.

Paths are modelled relative to the project root, so the working
directory component of every path join is dropped.  The JavaScript
regular expressions used by the source are embedded via a small exact
matcher over token lists: literals, single-character classes, optional
characters, greedy character-class runs with backtracking, and an
end-of-input anchor, which covers every pattern the source uses with
the same leftmost-match, greedy-first semantics.
-/

/- Character classes used by the regular expressions of the source. -/

def wsCodes : List Nat :=
  [9, 10, 11, 12, 13, 32, 160, 5760, 8192, 8193, 8194, 8195, 8196, 8197,
   8198, 8199, 8200, 8201, 8202, 8232, 8233, 8239, 8287, 12288, 65279]

def wsChar (c : Char) : Bool := wsCodes.contains c.toNat

def quoteChar (c : Char) : Bool := [39, 34, 96].contains c.toNat

def notQuote (c : Char) : Bool := !(quoteChar c)

def notBrace (c : Char) : Bool := !(c.toNat == 125)

def notWs (c : Char) : Bool := !(wsChar c)

def notWsNl (c : Char) : Bool := !(wsChar c || c.toNat == 10)

def dotChar (c : Char) : Bool := !([10, 13, 8232, 8233].contains c.toNat)

def semiChar (c : Char) : Bool := c.toNat == 59

/- Tokens of the embedded regular expressions. -/

inductive Tok where
  | lit (s : List Char)
  | one (p : Char → Bool)
  | opt (p : Char → Bool)
  | cls (p : Char → Bool) (lo : Nat) (cap : Bool)
  | eos

def listLeads : List Char → List Char → Bool
  | [], _ => true
  | _ :: _, [] => false
  | a :: as, b :: bs => a == b && listLeads as bs

def tryFrom {α : Type} (f : Nat → Option α) (lo : Nat) : Nat → Option α
  | 0 => if lo == 0 then f 0 else none
  | Nat.succ i =>
    if Nat.succ i < lo then none
    else
      match f (Nat.succ i) with
      | some r => some r
      | none => tryFrom f lo i

def rxm : Nat → List Tok → List Char → Option (List String × Nat)
  | 0, _, _ => none
  | Nat.succ _, [], _ => some ([], 0)
  | Nat.succ f, Tok.lit l :: ts, cs =>
    if listLeads l cs then
      match rxm f ts (cs.drop l.length) with
      | some (caps, n) => some (caps, l.length + n)
      | none => none
    else none
  | Nat.succ f, Tok.one p :: ts, cs =>
    match cs with
    | [] => none
    | c :: cs2 =>
      if p c then
        match rxm f ts cs2 with
        | some (caps, n) => some (caps, n + 1)
        | none => none
      else none
  | Nat.succ f, Tok.opt p :: ts, cs =>
    match cs with
    | c :: cs2 =>
      if p c then
        match rxm f ts cs2 with
        | some (caps, n) => some (caps, n + 1)
        | none => rxm f ts cs
      else rxm f ts cs
    | [] => rxm f ts cs
  | Nat.succ f, Tok.eos :: ts, cs =>
    if cs.isEmpty then rxm f ts cs else none
  | Nat.succ f, Tok.cls p lo cap :: ts, cs =>
    tryFrom
      (fun i =>
        match rxm f ts (cs.drop i) with
        | some (caps, n) =>
          some ((if cap then String.mk (cs.take i) :: caps else caps), i + n)
        | none => none)
      lo ((cs.takeWhile p).length)

def matchToks (toks : List Tok) (cs : List Char) : Option (List String × Nat) :=
  rxm (toks.length + 1) toks cs

def searchAux (toks : List Tok) : List Char → Nat → Option (Nat × Nat × List String)
  | [], pos =>
    match matchToks toks [] with
    | some (caps, len) => some (pos, len, caps)
    | none => none
  | c :: cs, pos =>
    match matchToks toks (c :: cs) with
    | some (caps, len) => some (pos, len, caps)
    | none => searchAux toks cs (pos + 1)

def regexSearch (toks : List Tok) (s : String) : Option (Nat × Nat × List String) :=
  searchAux toks s.data 0

def searchHit (toks : List Tok) (s : String) : Bool :=
  (regexSearch toks s).isSome

def searchCap (toks : List Tok) (s : String) : Option String :=
  match regexSearch toks s with
  | some (_, _, c :: _) => some c
  | _ => none

def replaceFirst (toks : List Tok) (repl s : String) : String :=
  match regexSearch toks s with
  | some (st, len, _) => String.mk (s.data.take st ++ repl.data ++ s.data.drop (st + len))
  | none => s

def replaceAllAux (toks : List Tok) (repl : List Char) : Nat → List Char → List Char
  | 0, cs => cs
  | Nat.succ f, cs =>
    match searchAux toks cs 0 with
    | some (st, len, _) => cs.take st ++ repl ++ replaceAllAux toks repl f (cs.drop (st + len))
    | none => cs

def replaceAll (toks : List Tok) (repl s : String) : String :=
  String.mk (replaceAllAux toks repl.data (s.data.length + 1) s.data)

def jsIncludes (s sub : String) : Bool := searchHit [Tok.lit sub.data] s

def strEndsWith (s suf : String) : Bool := listLeads suf.data.reverse s.data.reverse

/- The concrete patterns of the source, one token list per regular
expression literal appearing in BuildDetector and ConfigParser. -/

def distDirToks : List Tok :=
  [Tok.lit (("distDir").data), Tok.cls wsChar 0 false, Tok.lit ((":").data),
   Tok.cls wsChar 0 false, Tok.one quoteChar, Tok.cls notQuote 1 true, Tok.one quoteChar]

def outputExportToks : List Tok :=
  [Tok.lit (("output").data), Tok.cls wsChar 0 false, Tok.lit ((":").data),
   Tok.cls wsChar 0 false, Tok.one quoteChar, Tok.lit (("export").data), Tok.one quoteChar]

def outDirToks : List Tok :=
  [Tok.lit (("outDir").data), Tok.cls wsChar 0 false, Tok.lit ((":").data),
   Tok.cls wsChar 0 false, Tok.one quoteChar, Tok.cls notQuote 1 true, Tok.one quoteChar]

def viteBuildOutDirToks : List Tok :=
  [Tok.lit (("build").data), Tok.cls wsChar 0 false, Tok.lit ((":").data),
   Tok.cls wsChar 0 false, Tok.lit (("\x7b").data), Tok.cls notBrace 0 false,
   Tok.lit (("outDir").data), Tok.cls wsChar 0 false, Tok.lit ((":").data),
   Tok.cls wsChar 0 false, Tok.one quoteChar, Tok.cls notQuote 1 true, Tok.one quoteChar]

def buildPathToks : List Tok :=
  [Tok.lit (("BUILD_PATH=").data), Tok.cls notWs 1 true]

def buildPathEnvToks : List Tok :=
  [Tok.lit (("BUILD_PATH=").data), Tok.cls notWsNl 1 true]

def baseAssignToks : List Tok :=
  [Tok.lit (("base:").data), Tok.cls wsChar 0 false, Tok.one quoteChar,
   Tok.cls notQuote 0 false, Tok.one quoteChar]

def defineConfigBraceToks : List Tok :=
  [Tok.lit (("defineConfig(").data), Tok.cls wsChar 0 false, Tok.lit (("\x7b").data)]

def exportDefaultBraceToks : List Tok :=
  [Tok.lit (("export default").data), Tok.cls wsChar 0 false, Tok.lit (("\x7b").data)]

def closingBraceToks : List Tok :=
  [Tok.lit (("\x7d").data), Tok.cls wsChar 0 false, Tok.opt semiChar,
   Tok.cls wsChar 0 false, Tok.eos]

def publicUrlLineToks : List Tok :=
  [Tok.lit (("PUBLIC_URL=").data), Tok.cls dotChar 0 false]

/- Filesystem model.  A path maps to a node: a file with content and a
readability flag, or a directory.  The environment functions wfail and
ufail say whether a write or an unlink at a given path raises, which
models operating-system failures such as permission errors. -/

inductive Node where
  | file (content : String) (readable : Bool)
  | dir
deriving DecidableEq

structure FS where
  entries : List (String × Node)
  wfail : String → Bool
  ufail : String → Bool

def lookupEnt (l : List (String × Node)) (k : String) : Option Node :=
  match l.find? (fun e => e.1 == k) with
  | some e => some e.2
  | none => none

def FS.lookup (fs : FS) (k : String) : Option Node := lookupEnt fs.entries k

def setEnt (l : List (String × Node)) (k : String) (n : Node) : List (String × Node) :=
  if l.any (fun e => e.1 == k) then l.map (fun e => if e.1 == k then (k, n) else e)
  else l ++ [(k, n)]

def existsSync (fs : FS) (k : String) : Bool := (fs.lookup k).isSome

def readFileSync (fs : FS) (k : String) : Except Unit String :=
  match fs.lookup k with
  | some (Node.file c true) => Except.ok c
  | _ => Except.error ()

def writeFileSync (fs : FS) (k c : String) : Except Unit FS :=
  if fs.wfail k then Except.error ()
  else
    match fs.lookup k with
    | some Node.dir => Except.error ()
    | _ => Except.ok { fs with entries := setEnt fs.entries k (Node.file c true) }

def unlinkSync (fs : FS) (k : String) : Except Unit FS :=
  if fs.ufail k then Except.error ()
  else
    match fs.lookup k with
    | some (Node.file _ _) =>
      Except.ok { fs with entries := fs.entries.filter (fun e => !(e.1 == k)) }
    | _ => Except.error ()

def fileContent? (fs : FS) (k : String) : Option String :=
  match fs.lookup k with
  | some (Node.file c _) => some c
  | _ => none

/- BuildDetector.  The package manifest is modelled by the three fields
the detector reads: the build script text, and the truthiness of the
vite development dependency and of the react-scripts dependency. -/

inductive Framework where
  | next
  | vite
  | react
  | generic
deriving DecidableEq

structure BuildProfile where
  framework : Framework
  buildCommand : String
  outputDir : String
  requiresExport : Bool := false
  configFile : Option String := none
deriving DecidableEq

structure PackageJson where
  scriptsBuild : Option String
  devDependenciesVite : Bool
  dependenciesReactScripts : Bool

def jsOr (s d : String) : String := if s == ("") then d else s

def commonDirs : List String :=
  [("dist"), ("build"), ("public"), ("out"), ("_site"), ("docs")]

def findGenericConfigDirs (fs : FS) : BuildProfile :=
  match commonDirs.find? (fun d => existsSync fs d) with
  | some d =>
    { framework := Framework.generic, buildCommand := ("npm run build"), outputDir := d }
  | none =>
    { framework := Framework.generic, buildCommand := ("npm run build"), outputDir := ("dist") }

def findGenericConfig (fs : FS) (pj : PackageJson) : BuildProfile :=
  match pj.scriptsBuild with
  | some bs =>
    if !(bs == ("")) then
      match commonDirs.find? (fun d => jsIncludes bs d) with
      | some d =>
        { framework := Framework.generic, buildCommand := ("npm run build"), outputDir := d }
      | none => findGenericConfigDirs fs
    else findGenericConfigDirs fs
  | none => findGenericConfigDirs fs

def nextConfigFiles : List String :=
  [("next.config.js"), ("next.config.ts"), ("next.config.mjs")]

def parseNextConfig (fs : FS) (cf : String) : String :=
  match readFileSync fs cf with
  | Except.error _ => ("out")
  | Except.ok content =>
    match searchCap distDirToks content with
    | some v => v
    | none =>
      if searchHit outputExportToks content then
        match searchCap outDirToks content with
        | some v => v
        | none => ("out")
      else (".next")

def findNextConfig (fs : FS) : Option BuildProfile :=
  match nextConfigFiles.find? (fun f => existsSync fs f) with
  | some cf =>
    some { framework := Framework.next, buildCommand := ("npm run build"),
           outputDir := jsOr (parseNextConfig fs cf) ("out"),
           requiresExport := true, configFile := some cf }
  | none => none

def viteConfigFiles : List String :=
  [("vite.config.js"), ("vite.config.ts"), ("vitest.config.js"), ("vitest.config.ts")]

def parseViteConfig (fs : FS) (cf : String) : String :=
  match readFileSync fs cf with
  | Except.error _ => ("dist")
  | Except.ok content =>
    match
      (match searchCap viteBuildOutDirToks content with
       | some v => some v
       | none => searchCap outDirToks content) with
    | some v => v
    | none => ("dist")

def findViteConfig (fs : FS) (pj : PackageJson) : Option BuildProfile :=
  match viteConfigFiles.find? (fun f => existsSync fs f) with
  | some cf =>
    some { framework := Framework.vite, buildCommand := ("npm run build"),
           outputDir := jsOr (parseViteConfig fs cf) ("dist"), configFile := some cf }
  | none =>
    if pj.devDependenciesVite then
      some { framework := Framework.vite, buildCommand := ("npm run build"),
             outputDir := jsOr (("dist")) (("dist")), configFile := none }
    else none

def envFiles : List String :=
  [(".env"), (".env.local"), (".env.production"), (".env.production.local")]

def parseReactEnvLoop (fs : FS) : List String → String
  | [] => ("build")
  | f :: rest =>
    if existsSync fs f then
      match readFileSync fs f with
      | Except.error _ => ("build")
      | Except.ok content =>
        match searchCap buildPathEnvToks content with
        | some v => v
        | none => parseReactEnvLoop fs rest
    else parseReactEnvLoop fs rest

def parseReactConfig (fs : FS) (pj : PackageJson) : String :=
  match pj.scriptsBuild with
  | some bs =>
    if !(bs == ("")) then
      match searchCap buildPathToks bs with
      | some v => v
      | none => parseReactEnvLoop fs envFiles
    else parseReactEnvLoop fs envFiles
  | none => parseReactEnvLoop fs envFiles

def findReactConfig (fs : FS) (pj : PackageJson) : Option BuildProfile :=
  if pj.dependenciesReactScripts then
    some { framework := Framework.react, buildCommand := ("npm run build"),
           outputDir := jsOr (parseReactConfig fs pj) ("build") }
  else none

def detectBuildConfig (fs : FS) (pj : PackageJson) : BuildProfile :=
  match findNextConfig fs with
  | some p => p
  | none =>
    match findViteConfig fs pj with
    | some p => p
    | none =>
      match findReactConfig fs pj with
      | some p => p
      | none => findGenericConfig fs pj

/- The surrounding deployer loads the manifest before detection.  The
JSON parser itself is outside the core, so it is an oracle parameter:
loadPackageJson raises exactly when the read or the parse fails. -/

def loadPackageJson (parseJson : String → Option PackageJson) (fs : FS) :
    Except Unit PackageJson :=
  match readFileSync fs ("package.json") with
  | Except.error _ => Except.error ()
  | Except.ok s =>
    match parseJson s with
    | some pj => Except.ok pj
    | none => Except.error ()

def detectPipeline (parseJson : String → Option PackageJson) (fs : FS) :
    Except Unit BuildProfile :=
  match loadPackageJson parseJson fs with
  | Except.error e => Except.error e
  | Except.ok pj => Except.ok (detectBuildConfig fs pj)

/- ConfigParser.  Only the pure text transformations are embedded here;
generateNextConfig with an existing original evaluates the original
module in a JavaScript sandbox, which has no shallow embedding, so the
configurer below abstracts over that generator. -/

def viteImport : String := "import \x7b defineConfig \x7d from \x27vite\x27;"

def generateViteConfigFresh (basePath : String) : String :=
  viteImport ++ ("\n\nexport default defineConfig(\x7b\n  base: \x27") ++ basePath ++
    ("\x27,\n  build: \x7b\n    outDir: \x27dist\x27\n  \x7d\n\x7d);")

def modifyViteConfig (originalContent basePath : String) (_isTypeScript : Bool) : String :=
  let m1 :=
    if !(jsIncludes originalContent ("defineConfig")) then
      viteImport ++ ("\n") ++ originalContent
    else originalContent
  if jsIncludes m1 ("base:") then
    replaceAll baseAssignToks (("base: \x27") ++ basePath ++ ("\x27")) m1
  else
    if jsIncludes m1 ("defineConfig(\x7b") then
      replaceFirst defineConfigBraceToks
        (("defineConfig(\x7b\n  base: \x27") ++ basePath ++ ("\x27,")) m1
    else
      if jsIncludes m1 ("export default \x7b") then
        let m2 := replaceFirst exportDefaultBraceToks
          (("export default defineConfig(\x7b\n  base: \x27") ++ basePath ++ ("\x27,")) m1
        replaceFirst closingBraceToks ("\x7d);") m2
      else m1

def generateViteConfig (basePath : String) (isTypeScript : Bool)
    (originalContent : Option String) : String :=
  match originalContent with
  | some o => modifyViteConfig o basePath isTypeScript
  | none => generateViteConfigFresh basePath

def generateReactEnvConfig (basePath : String) (originalContent : String) : String :=
  if jsIncludes originalContent ("PUBLIC_URL=") then
    replaceFirst publicUrlLineToks (("PUBLIC_URL=") ++ basePath) originalContent
  else originalContent ++ ("\nPUBLIC_URL=") ++ basePath ++ ("\n")

/- BuildConfigurer.  The state is the record of original contents (a
null value marks a file created by configure, to be deleted on restore)
together with the filesystem.  An Outcome is the returned state plus
whether an exception escaped. -/

structure St where
  record : List (String × Option String)
  fs : FS

inductive Outcome where
  | ok (st : St)
  | err (st : St)

def Outcome.isOkB : Outcome → Bool
  | Outcome.ok _ => true
  | Outcome.err _ => false

def Outcome.stOf : Outcome → St
  | Outcome.ok s => s
  | Outcome.err s => s

def recordSet (r : List (String × Option String)) (k : String) (v : Option String) :
    List (String × Option String) :=
  if r.any (fun e => e.1 == k) then r.map (fun e => if e.1 == k then (k, v) else e)
  else r ++ [(k, v)]

def configureNextJsBasePath (genNext : String → Option String → String)
    (basePath : String) (st : St) : Outcome :=
  match nextConfigFiles.find? (fun f => existsSync st.fs f) with
  | some cf =>
    match readFileSync st.fs cf with
    | Except.error _ => Outcome.err st
    | Except.ok orig =>
      let st1 : St := { st with record := recordSet st.record cf (some orig) }
      match writeFileSync st1.fs cf (genNext basePath (some orig)) with
      | Except.error _ => Outcome.err st1
      | Except.ok fs2 => Outcome.ok { st1 with fs := fs2 }
  | none =>
    match writeFileSync st.fs ("next.config.js") (genNext basePath none) with
    | Except.error _ => Outcome.err st
    | Except.ok fs2 =>
      Outcome.ok { record := recordSet st.record ("next.config.js") none, fs := fs2 }

def viteConfigFilesPatch : List String := [("vite.config.js"), ("vite.config.ts")]

def configureViteBasePath (basePath : String) (st : St) : Outcome :=
  match viteConfigFilesPatch.find? (fun f => existsSync st.fs f) with
  | some cf =>
    match readFileSync st.fs cf with
    | Except.error _ => Outcome.err st
    | Except.ok orig =>
      let st1 : St := { st with record := recordSet st.record cf (some orig) }
      match writeFileSync st1.fs cf
          (generateViteConfig basePath (strEndsWith cf (".ts")) (some orig)) with
      | Except.error _ => Outcome.err st1
      | Except.ok fs2 => Outcome.ok { st1 with fs := fs2 }
  | none =>
    let isTS := existsSync st.fs ("tsconfig.json")
    let cf := if isTS then ("vite.config.ts") else ("vite.config.js")
    match writeFileSync st.fs cf (generateViteConfig basePath isTS none) with
    | Except.error _ => Outcome.err st
    | Except.ok fs2 => Outcome.ok { record := recordSet st.record cf none, fs := fs2 }

def configureReactBasePath (basePath : String) (st : St) : Outcome :=
  if existsSync st.fs (".env.local") then
    match readFileSync st.fs (".env.local") with
    | Except.error _ => Outcome.err st
    | Except.ok orig =>
      let st1 : St := { st with record := recordSet st.record (".env.local") (some orig) }
      match writeFileSync st1.fs (".env.local") (generateReactEnvConfig basePath orig) with
      | Except.error _ => Outcome.err st1
      | Except.ok fs2 => Outcome.ok { st1 with fs := fs2 }
  else
    let st1 : St := { st with record := recordSet st.record (".env.local") none }
    match writeFileSync st1.fs (".env.local") (generateReactEnvConfig basePath ("")) with
    | Except.error _ => Outcome.err st1
    | Except.ok fs2 => Outcome.ok { st1 with fs := fs2 }

def configureBasePath (genNext : String → Option String → String)
    (profile : BuildProfile) (basePath : String) (st : St) : Outcome :=
  match profile.framework with
  | Framework.next => configureNextJsBasePath genNext basePath st
  | Framework.vite => configureViteBasePath basePath st
  | Framework.react => configureReactBasePath basePath st
  | Framework.generic => Outcome.ok st

inductive FsOut where
  | ok (fs : FS)
  | err (fs : FS)

def restoreEntry (fs : FS) (e : String × Option String) : Except Unit FS :=
  match e.2 with
  | none => if existsSync fs e.1 then unlinkSync fs e.1 else Except.ok fs
  | some c => writeFileSync fs e.1 c

def restoreLoop (fs : FS) : List (String × Option String) → FsOut
  | [] => FsOut.ok fs
  | e :: rest =>
    match restoreEntry fs e with
    | Except.error _ => FsOut.err fs
    | Except.ok fs2 => restoreLoop fs2 rest

def restoreOriginalConfig (st : St) : Outcome :=
  match restoreLoop st.fs st.record with
  | FsOut.ok fs2 => Outcome.ok { record := [], fs := fs2 }
  | FsOut.err fs2 => Outcome.err { record := st.record, fs := fs2 }

/- Derived predicates used in the statements below. -/

def nextSigB (fs : FS) : Bool :=
  existsSync fs ("next.config.js") || existsSync fs ("next.config.ts") ||
    existsSync fs ("next.config.mjs")

def viteSigB (fs : FS) (pj : PackageJson) : Bool :=
  existsSync fs ("vite.config.js") || existsSync fs ("vite.config.ts") ||
    existsSync fs ("vitest.config.js") || existsSync fs ("vitest.config.ts") ||
    pj.devDependenciesVite

def reactSigB (pj : PackageJson) : Bool := pj.dependenciesReactScripts

def entryRestored (preFs postFs : FS) (e : String × Option String) : Bool :=
  match e.2 with
  | some c => (fileContent? preFs e.1 == some c) && (fileContent? postFs e.1 == some c)
  | none => !(existsSync postFs e.1)

def capOkB : Tok → Bool
  | Tok.cls _ lo cap => !cap || decide (1 ≤ lo)
  | _ => true

/- Concrete fixtures for witnesses and counterexamples. -/

def noFail : String → Bool := fun _ => false

def genNextAny : String → Option String → String := fun _ _ => ("")

def pjPlain : PackageJson :=
  { scriptsBuild := none, devDependenciesVite := false, dependenciesReactScripts := false }

def profViteW : BuildProfile :=
  { framework := Framework.vite, buildCommand := ("npm run build"), outputDir := ("dist") }

def viteOrigV : String := "export default defineConfig(\x7b plugins: [] \x7d)"

def vitePatchedV : String :=
  "export default defineConfig(\x7b\n  base: \x27/previews\x27, plugins: [] \x7d)"

def fsW1 : FS :=
  { entries := [(("vite.config.js"), Node.file viteOrigV true)],
    wfail := noFail, ufail := noFail }

def stW1 : St := { record := [], fs := fsW1 }

def st1W : St := (configureBasePath genNextAny profViteW ("/previews") stW1).stOf

def st2W : St := (restoreOriginalConfig st1W).stOf

def stC9 : St :=
  { record := [(("a.txt"), some ("orig"))],
    fs := { entries := [(("a.txt"), Node.file ("patched") true)],
            wfail := noFail, ufail := noFail } }

def stC9r : St := (restoreOriginalConfig stC9).stOf

def fsC2 : FS :=
  { entries := [(("next.config.js"), Node.file ("") true)], wfail := noFail, ufail := noFail }

def fsC3 : FS :=
  { entries := [(("a.txt"), Node.file ("patched") true), (("b.txt"), Node.file ("tmp") true)],
    wfail := fun p => p == ("a.txt"), ufail := noFail }

def stC3 : St :=
  { record := [(("a.txt"), some ("orig")), (("b.txt"), none)], fs := fsC3 }

def fsC5 : FS :=
  { entries := [(("next.config.js"), Node.file ("") true),
                (("vite.config.js"), Node.file ("") true)],
    wfail := noFail, ufail := noFail }

def nextCfgC6 : String :=
  "module.exports = \x7b output: \x27export\x27, distDir: \x27custom-out\x27 \x7d"

def fsC6 : FS :=
  { entries := [(("next.config.js"), Node.file nextCfgC6 true)],
    wfail := noFail, ufail := noFail }

def fsC8 : FS :=
  { entries := [(("vite.config.js"), Node.file ("whatever") false),
                (("package.json"), Node.file ("pkg") true)],
    wfail := noFail, ufail := noFail }

def parseJsonW : String → Option PackageJson := fun _ => some pjPlain

def fsC10 : FS :=
  { entries := [(("vite.config.js"), Node.file ("outDir: \x27aaa\x27") true),
                (("vitest.config.js"), Node.file ("outDir: \x27bbb\x27") true)],
    wfail := noFail, ufail := noFail }

def fsC10w : FS :=
  { entries := [(("vitest.config.js"), Node.file ("outDir: \x27bbb\x27") true)],
    wfail := noFail, ufail := noFail }

def fsC10t : FS :=
  { entries := [(("vitest.config.ts"), Node.file ("outDir: \x27ccc\x27") true)],
    wfail := noFail, ufail := noFail }

/- Basic lemmas about the association-list filesystem. -/

theorem lookupEnt_cons_pos (e : String × Node) (l : List (String × Node)) (k : String)
    (h : (e.1 == k) = true) : lookupEnt (e :: l) k = some e.2 := by
  simp only [lookupEnt, List.find?_cons, h]

theorem lookupEnt_cons_neg (e : String × Node) (l : List (String × Node)) (k : String)
    (h : (e.1 == k) = false) : lookupEnt (e :: l) k = lookupEnt l k := by
  simp only [lookupEnt, List.find?_cons, h]

theorem lookupEnt_append_self (l : List (String × Node)) (k : String) (n : Node)
    (h : l.any (fun e => e.1 == k) = false) : lookupEnt (l ++ [(k, n)]) k = some n := by
  induction l with
  | nil => simp [lookupEnt, List.find?]
  | cons e l ih =>
    rw [List.any_cons, Bool.or_eq_false_iff] at h
    rw [List.cons_append, lookupEnt_cons_neg _ _ _ h.1]
    exact ih h.2

theorem lookupEnt_map_self (l : List (String × Node)) (k : String) (n : Node)
    (h : l.any (fun e => e.1 == k) = true) :
    lookupEnt (l.map (fun e => if e.1 == k then (k, n) else e)) k = some n := by
  induction l with
  | nil => simp at h
  | cons e l ih =>
    rw [List.map_cons]
    by_cases he : (e.1 == k) = true
    · rw [if_pos he]
      exact lookupEnt_cons_pos _ _ _ (by simp)
    · have he2 : (e.1 == k) = false := by
        cases hx : (e.1 == k)
        · rfl
        · exact absurd hx he
      rw [if_neg (by simp [he2])]
      rw [List.any_cons, he2, Bool.false_or] at h
      rw [lookupEnt_cons_neg _ _ _ he2]
      exact ih h

theorem lookupEnt_setEnt_self (l : List (String × Node)) (k : String) (n : Node) :
    lookupEnt (setEnt l k n) k = some n := by
  unfold setEnt
  cases ha : l.any (fun e => e.1 == k)
  · rw [if_neg (by simp [ha])]
    exact lookupEnt_append_self l k n ha
  · rw [if_pos (by simp [ha])]
    exact lookupEnt_map_self l k n ha

theorem lookupEnt_filterOut (l : List (String × Node)) (k : String) :
    lookupEnt (l.filter (fun e => !(e.1 == k))) k = none := by
  induction l with
  | nil => simp [lookupEnt, List.find?]
  | cons e l ih =>
    by_cases he : (e.1 == k) = true
    · rw [List.filter_cons_of_neg (by simp [he])]
      exact ih
    · have he2 : (e.1 == k) = false := by
        cases hx : (e.1 == k)
        · rfl
        · exact absurd hx he
      rw [List.filter_cons_of_pos (by simp [he2])]
      rw [lookupEnt_cons_neg _ _ _ he2]
      exact ih

theorem readFileSync_ok_content (fs : FS) (k c : String)
    (h : readFileSync fs k = Except.ok c) : fileContent? fs k = some c := by
  unfold readFileSync at h
  unfold fileContent?
  cases hl : fs.lookup k with
  | none => rw [hl] at h; exact absurd h (by simp)
  | some n =>
    rw [hl] at h
    cases n with
    | dir => exact absurd h (by simp)
    | file c2 r =>
      cases r with
      | false => exact absurd h (by simp)
      | true =>
        simp at h
        simp [h]

theorem writeFileSync_ok_content (fs fs2 : FS) (k c : String)
    (h : writeFileSync fs k c = Except.ok fs2) : fileContent? fs2 k = some c := by
  unfold writeFileSync at h
  cases hw : fs.wfail k
  · rw [if_neg (by simp [hw])] at h
    cases hl : fs.lookup k with
    | none =>
      rw [hl] at h
      simp at h
      rw [← h]
      unfold fileContent? FS.lookup
      rw [lookupEnt_setEnt_self]
    | some n =>
      rw [hl] at h
      cases n with
      | dir => exact absurd h (by simp)
      | file c2 r =>
        simp at h
        rw [← h]
        unfold fileContent? FS.lookup
        rw [lookupEnt_setEnt_self]
  · rw [if_pos (by simp [hw])] at h
    exact absurd h (by simp)

theorem unlinkSync_ok_gone (fs fs2 : FS) (k : String)
    (h : unlinkSync fs k = Except.ok fs2) : existsSync fs2 k = false := by
  unfold unlinkSync at h
  cases hu : fs.ufail k
  · rw [if_neg (by simp [hu])] at h
    cases hl : fs.lookup k with
    | none => rw [hl] at h; exact absurd h (by simp)
    | some n =>
      rw [hl] at h
      cases n with
      | dir => exact absurd h (by simp)
      | file c r =>
        simp at h
        rw [← h]
        unfold existsSync FS.lookup
        rw [lookupEnt_filterOut]
        rfl
  · rw [if_pos (by simp [hu])] at h
    exact absurd h (by simp)

/- Captured groups of the embedded patterns are nonempty whenever every
capturing class requires at least one character, which holds for every
pattern of the source.  This justifies dropping the JavaScript
falsy-string fallback when a capture is returned. -/

theorem tryFrom_eq_some {α : Type} (f : Nat → Option α) (lo : Nat) :
    ∀ (i : Nat) (r : α), tryFrom f lo i = some r → ∃ j, lo ≤ j ∧ j ≤ i ∧ f j = some r := by
  intro i
  induction i with
  | zero =>
    intro r h
    unfold tryFrom at h
    by_cases hlo : (lo == 0) = true
    · rw [if_pos (by simp [hlo])] at h
      have hz : lo = 0 := by simpa using hlo
      exact ⟨0, by omega, Nat.le_refl 0, h⟩
    · rw [if_neg (by simpa using hlo)] at h
      exact absurd h (by simp)
  | succ i ih =>
    intro r h
    unfold tryFrom at h
    by_cases hlt : Nat.succ i < lo
    · rw [if_pos hlt] at h
      exact absurd h (by simp)
    · rw [if_neg hlt] at h
      cases hf : f (Nat.succ i) with
      | some r2 =>
        rw [hf] at h
        simp at h
        exact ⟨Nat.succ i, by omega, Nat.le_refl _, by rw [hf, h]⟩
      | none =>
        rw [hf] at h
        obtain ⟨j, hj1, hj2, hj3⟩ := ih r h
        exact ⟨j, hj1, Nat.le_succ_of_le hj2, hj3⟩

theorem rxm_caps_ne (fuel : Nat) :
    ∀ (toks : List Tok) (cs : List Char) (caps : List String) (n : Nat),
      rxm fuel toks cs = some (caps, n) → toks.all capOkB = true →
      ∀ s, s ∈ caps → ¬(s = ("")) := by
  induction fuel with
  | zero =>
    intro toks cs caps n h
    simp [rxm] at h
  | succ f ih =>
    intro toks cs caps n h hok s hs
    cases toks with
    | nil =>
      simp only [rxm, Option.some.injEq, Prod.mk.injEq] at h
      rw [← h.1] at hs
      simp at hs
    | cons t ts =>
      have hokt : capOkB t = true := by
        rw [List.all_cons, Bool.and_eq_true] at hok
        exact hok.1
      have hokts : ts.all capOkB = true := by
        rw [List.all_cons, Bool.and_eq_true] at hok
        exact hok.2
      cases t with
      | lit l =>
        simp only [rxm] at h
        split at h
        · split at h
          next caps2 n2 hr =>
            simp only [Option.some.injEq, Prod.mk.injEq] at h
            refine ih ts (cs.drop l.length) caps2 n2 hr hokts s ?_
            rw [← h.1] at hs
            exact hs
          next hr => exact absurd h (by simp)
        · exact absurd h (by simp)
      | one p =>
        cases cs with
        | nil =>
          simp only [rxm] at h
          exact absurd h (by simp)
        | cons c cs2 =>
          simp only [rxm] at h
          split at h
          · split at h
            next caps2 n2 hr =>
              simp only [Option.some.injEq, Prod.mk.injEq] at h
              refine ih ts cs2 caps2 n2 hr hokts s ?_
              rw [← h.1] at hs
              exact hs
            next hr => exact absurd h (by simp)
          · exact absurd h (by simp)
      | opt p =>
        cases cs with
        | nil =>
          simp only [rxm] at h
          exact ih ts [] caps n h hokts s hs
        | cons c cs2 =>
          simp only [rxm] at h
          split at h
          · split at h
            next caps2 n2 hr =>
              simp only [Option.some.injEq, Prod.mk.injEq] at h
              refine ih ts cs2 caps2 n2 hr hokts s ?_
              rw [← h.1] at hs
              exact hs
            next hr => exact ih ts (c :: cs2) caps n h hokts s hs
          · exact ih ts (c :: cs2) caps n h hokts s hs
      | eos =>
        simp only [rxm] at h
        split at h
        · exact ih ts cs caps n h hokts s hs
        · exact absurd h (by simp)
      | cls p lo cap =>
        simp only [rxm] at h
        obtain ⟨j, hj1, hj2, hj3⟩ := tryFrom_eq_some _ lo _ _ h
        split at hj3
        next caps2 n2 hr =>
          simp only [Option.some.injEq, Prod.mk.injEq] at hj3
          cases cap with
          | false =>
            simp only [Bool.false_eq_true, if_false] at hj3
            refine ih ts (cs.drop j) caps2 n2 hr hokts s ?_
            rw [← hj3.1] at hs
            exact hs
          | true =>
            simp only [if_true] at hj3
            rw [← hj3.1] at hs
            cases hs with
            | tail _ hs2 => exact ih ts (cs.drop j) caps2 n2 hr hokts s hs2
            | head =>
              have hlo : 1 ≤ lo := by
                simpa [capOkB] using hokt
              have hj : 1 ≤ j := Nat.le_trans hlo hj1
              cases cs with
              | nil =>
                simp at hj2
                omega
              | cons c cs3 =>
                intro habs
                cases j with
                | zero => omega
                | succ j2 =>
                  rw [List.take_succ_cons] at habs
                  have hd := congrArg String.data habs
                  simp at hd
        next hr => exact absurd hj3 (by simp)

theorem searchAux_caps_ne (toks : List Tok) (hok : toks.all capOkB = true) :
    ∀ (cs : List Char) (pos st len : Nat) (caps : List String),
      searchAux toks cs pos = some (st, len, caps) → ∀ s, s ∈ caps → ¬(s = ("")) := by
  intro cs
  induction cs with
  | nil =>
    intro pos st len caps h s hs
    simp only [searchAux] at h
    split at h
    next caps2 len2 hr =>
      simp only [Option.some.injEq, Prod.mk.injEq] at h
      refine rxm_caps_ne _ toks [] caps2 len2 hr hok s ?_
      rw [← h.2.2] at hs
      exact hs
    next hr => exact absurd h (by simp)
  | cons c cs2 ih =>
    intro pos st len caps h s hs
    simp only [searchAux] at h
    split at h
    next caps2 len2 hr =>
      simp only [Option.some.injEq, Prod.mk.injEq] at h
      refine rxm_caps_ne _ toks (c :: cs2) caps2 len2 hr hok s ?_
      rw [← h.2.2] at hs
      exact hs
    next hr => exact ih (pos + 1) st len caps h s hs

theorem searchCap_ne (toks : List Tok) (t v : String) (hok : toks.all capOkB = true)
    (h : searchCap toks t = some v) : ¬(v = ("")) := by
  unfold searchCap regexSearch at h
  split at h
  next st len c caps2 hr =>
    simp only [Option.some.injEq] at h
    rw [← h]
    exact searchAux_caps_ne toks hok t.data 0 st len (c :: caps2) hr c (by simp)
  next hr => exact absurd h (by simp)

theorem parseNextConfig_ne (fs : FS) (cf : String) : ¬(parseNextConfig fs cf = ("")) := by
  unfold parseNextConfig
  split
  · simp
  next content hr =>
    split
    next v hv => exact searchCap_ne distDirToks content v (by rfl) hv
    next hv =>
      split
      · split
        next v2 hv2 => exact searchCap_ne outDirToks content v2 (by rfl) hv2
        next hv2 => simp
      · simp

theorem parseViteConfig_ne (fs : FS) (cf : String) : ¬(parseViteConfig fs cf = ("")) := by
  unfold parseViteConfig
  split
  · simp
  next content hr =>
    split
    next v hv =>
      split at hv
      next v2 hv2 =>
        cases hv
        exact searchCap_ne viteBuildOutDirToks content _ (by rfl) hv2
      next hv2 => exact searchCap_ne outDirToks content v (by rfl) hv
    next hv => decide

theorem jsOr_of_ne (s d : String) (h : ¬(s = (""))) : jsOr s d = s := by
  unfold jsOr
  rw [if_neg (by simpa using h)]

/- Detector lemmas relating the finders to declarative signature
predicates on the project directory. -/

theorem findNextConfig_isSome (fs : FS) : (findNextConfig fs).isSome = nextSigB fs := by
  unfold findNextConfig nextSigB nextConfigFiles
  cases h1 : existsSync fs ("next.config.js") <;>
    cases h2 : existsSync fs ("next.config.ts") <;>
      cases h3 : existsSync fs ("next.config.mjs") <;>
        simp [List.find?, h1, h2, h3]

theorem findNextConfig_fields (fs : FS) (p : BuildProfile) (h : findNextConfig fs = some p) :
    p.framework = Framework.next ∧ p.requiresExport = true := by
  unfold findNextConfig at h
  split at h
  next cf hcf =>
    simp only [Option.some.injEq] at h
    rw [← h]
    exact ⟨rfl, rfl⟩
  next => exact absurd h (by simp)

theorem findNextConfig_none (fs : FS) (h : nextSigB fs = false) : findNextConfig fs = none := by
  cases hfn : findNextConfig fs with
  | none => rfl
  | some p =>
    have h2 := findNextConfig_isSome fs
    rw [hfn, h] at h2
    simp at h2

theorem findViteConfig_isSome (fs : FS) (pj : PackageJson) :
    (findViteConfig fs pj).isSome = viteSigB fs pj := by
  unfold findViteConfig viteSigB viteConfigFiles
  cases h1 : existsSync fs ("vite.config.js") <;>
    cases h2 : existsSync fs ("vite.config.ts") <;>
      cases h3 : existsSync fs ("vitest.config.js") <;>
        cases h4 : existsSync fs ("vitest.config.ts") <;>
          cases h5 : pj.devDependenciesVite <;>
            simp [List.find?, h1, h2, h3, h4, h5]

theorem findViteConfig_fields (fs : FS) (pj : PackageJson) (p : BuildProfile)
    (h : findViteConfig fs pj = some p) : p.framework = Framework.vite := by
  unfold findViteConfig at h
  split at h
  next cf hcf =>
    simp only [Option.some.injEq] at h
    rw [← h]
  next =>
    split at h
    · simp only [Option.some.injEq] at h
      rw [← h]
    · exact absurd h (by simp)

theorem findViteConfig_none (fs : FS) (pj : PackageJson) (h : viteSigB fs pj = false) :
    findViteConfig fs pj = none := by
  cases hfv : findViteConfig fs pj with
  | none => rfl
  | some p =>
    have h2 := findViteConfig_isSome fs pj
    rw [hfv, h] at h2
    simp at h2

theorem findReactConfig_fields (fs : FS) (pj : PackageJson) (p : BuildProfile)
    (h : findReactConfig fs pj = some p) : p.framework = Framework.react := by
  unfold findReactConfig at h
  split at h
  · simp only [Option.some.injEq] at h
    rw [← h]
  · exact absurd h (by simp)

theorem findReactConfig_isSome (fs : FS) (pj : PackageJson) :
    (findReactConfig fs pj).isSome = reactSigB pj := by
  unfold findReactConfig reactSigB
  cases h : pj.dependenciesReactScripts <;> simp [h]

theorem findReactConfig_none (fs : FS) (pj : PackageJson) (h : reactSigB pj = false) :
    findReactConfig fs pj = none := by
  unfold findReactConfig
  rw [if_neg (by simp [reactSigB] at h; simp [h])]

theorem findGenericConfig_framework (fs : FS) (pj : PackageJson) :
    (findGenericConfig fs pj).framework = Framework.generic := by
  unfold findGenericConfig findGenericConfigDirs
  split
  · split
    · split
      · rfl
      · split
        · rfl
        · rfl
    · split
      · rfl
      · rfl
  · split
    · rfl
    · rfl

/- Configure and restore lemmas. -/

theorem recordSet_nil (k : String) (v : Option String) : recordSet [] k v = [(k, v)] := by
  simp [recordSet]

theorem configureNext_ok_shape (genNext : String → Option String → String)
    (bp : String) (st st1 : St) (h0 : st.record = [])
    (h : configureNextJsBasePath genNext bp st = Outcome.ok st1) :
    ∃ k v, st1.record = [(k, v)] ∧ ∀ c, v = some c → fileContent? st.fs k = some c := by
  unfold configureNextJsBasePath at h
  split at h
  next cf hcf =>
    split at h
    next hr => exact absurd h (by simp)
    next orig hr =>
      simp only [] at h
      split at h
      next hw => exact absurd h (by simp)
      next fs2 hw =>
        simp only [Outcome.ok.injEq] at h
        refine ⟨cf, some orig, ?_, ?_⟩
        · rw [← h]
          simp [h0, recordSet_nil]
        · intro c hc
          rw [Option.some.injEq] at hc
          rw [← hc]
          exact readFileSync_ok_content st.fs cf orig hr
  next hcf =>
    split at h
    next hw => exact absurd h (by simp)
    next fs2 hw =>
      simp only [Outcome.ok.injEq] at h
      refine ⟨("next.config.js"), none, ?_, ?_⟩
      · rw [← h]
        simp [h0, recordSet_nil]
      · intro c hc
        exact absurd hc (by simp)

theorem configureVite_ok_shape (bp : String) (st st1 : St) (h0 : st.record = [])
    (h : configureViteBasePath bp st = Outcome.ok st1) :
    ∃ k v, st1.record = [(k, v)] ∧ ∀ c, v = some c → fileContent? st.fs k = some c := by
  unfold configureViteBasePath at h
  split at h
  next cf hcf =>
    split at h
    next hr => exact absurd h (by simp)
    next orig hr =>
      simp only [] at h
      split at h
      next hw => exact absurd h (by simp)
      next fs2 hw =>
        simp only [Outcome.ok.injEq] at h
        refine ⟨cf, some orig, ?_, ?_⟩
        · rw [← h]
          simp [h0, recordSet_nil]
        · intro c hc
          rw [Option.some.injEq] at hc
          rw [← hc]
          exact readFileSync_ok_content st.fs cf orig hr
  next hcf =>
    simp only [] at h
    split at h
    next hw => exact absurd h (by simp)
    next fs2 hw =>
      simp only [Outcome.ok.injEq] at h
      refine ⟨(if existsSync st.fs ("tsconfig.json") then ("vite.config.ts")
               else ("vite.config.js")), none, ?_, ?_⟩
      · rw [← h]
        simp [h0, recordSet_nil]
      · intro c hc
        exact absurd hc (by simp)

theorem configureReact_ok_shape (bp : String) (st st1 : St) (h0 : st.record = [])
    (h : configureReactBasePath bp st = Outcome.ok st1) :
    ∃ k v, st1.record = [(k, v)] ∧ ∀ c, v = some c → fileContent? st.fs k = some c := by
  unfold configureReactBasePath at h
  split at h
  · split at h
    next hr => exact absurd h (by simp)
    next orig hr =>
      simp only [] at h
      split at h
      next hw => exact absurd h (by simp)
      next fs2 hw =>
        simp only [Outcome.ok.injEq] at h
        refine ⟨(".env.local"), some orig, ?_, ?_⟩
        · rw [← h]
          simp [h0, recordSet_nil]
        · intro c hc
          rw [Option.some.injEq] at hc
          rw [← hc]
          exact readFileSync_ok_content st.fs (".env.local") orig hr
  · simp only [] at h
    split at h
    next hw => exact absurd h (by simp)
    next fs2 hw =>
      simp only [Outcome.ok.injEq] at h
      refine ⟨(".env.local"), none, ?_, ?_⟩
      · rw [← h]
        simp [h0, recordSet_nil]
      · intro c hc
        exact absurd hc (by simp)

theorem restore_single_some (k c : String) (fs : FS) (st2 : St)
    (h : restoreOriginalConfig { record := [(k, some c)], fs := fs } = Outcome.ok st2) :
    st2.record = [] ∧ fileContent? st2.fs k = some c := by
  unfold restoreOriginalConfig restoreLoop restoreEntry at h
  simp only at h
  split at h
  next fs3 hl =>
    split at hl
    next hw => exact absurd hl (by simp)
    next fs2 hw =>
      simp only [restoreLoop] at hl
      simp only [Outcome.ok.injEq] at h
      rw [FsOut.ok.injEq] at hl
      rw [← h]
      refine ⟨rfl, ?_⟩
      rw [← hl]
      exact writeFileSync_ok_content fs fs2 k c hw
  next fs3 hl => exact absurd h (by simp)

theorem restore_single_none (k : String) (fs : FS) (st2 : St)
    (h : restoreOriginalConfig { record := [(k, none)], fs := fs } = Outcome.ok st2) :
    st2.record = [] ∧ existsSync st2.fs k = false := by
  unfold restoreOriginalConfig restoreLoop restoreEntry at h
  simp only at h
  split at h
  next fs3 hl =>
    split at hl
    next hex => exact absurd hl (by simp)
    next fs2 hex =>
      simp only [restoreLoop] at hl
      rw [FsOut.ok.injEq] at hl
      simp only [Outcome.ok.injEq] at h
      rw [← h]
      refine ⟨rfl, ?_⟩
      rw [← hl]
      by_cases hx : existsSync fs k = true
      · rw [if_pos hx] at hex
        exact unlinkSync_ok_gone fs fs2 k hex
      · rw [if_neg hx] at hex
        simp only [Except.ok.injEq] at hex
        rw [← hex]
        simpa using hx
  next fs3 hl => exact absurd h (by simp)

theorem restoreLoop_ok_append (r1 : List (String × Option String)) :
    ∀ (fs fs1 : FS) (l : List (String × Option String)),
      restoreLoop fs r1 = FsOut.ok fs1 → restoreLoop fs (r1 ++ l) = restoreLoop fs1 l := by
  induction r1 with
  | nil =>
    intro fs fs1 l h
    simp only [restoreLoop] at h
    rw [FsOut.ok.injEq] at h
    rw [List.nil_append, h]
  | cons e r1 ih =>
    intro fs fs1 l h
    rw [List.cons_append]
    simp only [restoreLoop] at h ⊢
    split at h
    next hre => exact absurd h (by simp)
    next fs2 hre => exact ih fs2 fs1 l h

/-- Claim C1: for every project state whose record is empty, every
detected BuildProfile, every next-config generator and every base path,
if configure succeeds and the restore that follows it succeeds, then
every file recorded by configure passes the restoration check: a file
recorded with its original text had exactly that text before configure
and has exactly that text after restore, and a file recorded with the
did-not-exist marker is absent from disk after restore. -/
theorem configure_restore_roundtrip (genNext : String → Option String → String)
    (profile : BuildProfile) (bp : String) (st st1 st2 : St)
    (h0 : st.record = [])
    (hc : configureBasePath genNext profile bp st = Outcome.ok st1)
    (hr : restoreOriginalConfig st1 = Outcome.ok st2) :
    st1.record.all (entryRestored st.fs st2.fs) = true := by
  have hshape : st1.record = [] ∨
      ∃ k v, st1.record = [(k, v)] ∧ ∀ c, v = some c → fileContent? st.fs k = some c := by
    unfold configureBasePath at hc
    cases hfw : profile.framework with
    | next =>
      rw [hfw] at hc
      exact Or.inr (configureNext_ok_shape genNext bp st st1 h0 hc)
    | vite =>
      rw [hfw] at hc
      exact Or.inr (configureVite_ok_shape bp st st1 h0 hc)
    | react =>
      rw [hfw] at hc
      exact Or.inr (configureReact_ok_shape bp st st1 h0 hc)
    | generic =>
      rw [hfw] at hc
      simp only [Outcome.ok.injEq] at hc
      rw [← hc]
      exact Or.inl h0
  cases hshape with
  | inl hnil =>
    rw [hnil]
    rfl
  | inr hx =>
    obtain ⟨k, v, hrec, hpre⟩ := hx
    have hr2 : restoreOriginalConfig { record := [(k, v)], fs := st1.fs } = Outcome.ok st2 := by
      rw [← hrec]
      exact hr
    rw [hrec]
    cases v with
    | some c =>
      have hres := restore_single_some k c st1.fs st2 hr2
      have hpc := hpre c rfl
      simp [List.all_cons, entryRestored, hres.2, hpc]
    | none =>
      have hres := restore_single_none k st1.fs st2 hr2
      simp [List.all_cons, entryRestored, hres.2]

/-- Witness for C1: a vite project with an existing vite.config.js, base
path /previews; both calls succeed and the restoration check passes. -/
theorem configure_restore_roundtrip_witness :
    stW1.record = [] ∧ st1W.record.all (entryRestored stW1.fs st2W.fs) = true :=
  ⟨rfl, configure_restore_roundtrip genNextAny profViteW ("/previews") stW1 st1W st2W rfl rfl rfl⟩

/-- Claim C9: a successful restore clears the record, and a second
restore on the resulting state is a no-op returning the state unchanged
with no error. -/
theorem restore_clears_and_idempotent (st st2 : St)
    (h : restoreOriginalConfig st = Outcome.ok st2) :
    st2.record = [] ∧ restoreOriginalConfig st2 = Outcome.ok st2 := by
  unfold restoreOriginalConfig at h
  split at h
  next fs2 hl =>
    simp only [Outcome.ok.injEq] at h
    rw [← h]
    exact ⟨rfl, rfl⟩
  next fs2 hl => exact absurd h (by simp)

/-- Witness for C9 at a concrete one-entry state. -/
theorem restore_clears_and_idempotent_witness :
    stC9r.record = [] ∧ restoreOriginalConfig stC9r = Outcome.ok stC9r :=
  restore_clears_and_idempotent stC9 stC9r rfl

/-- Claim C3 counterexample: with two recorded entries where restoring
the first throws, restore raises, the second entry, a file marked for
deletion, is still on disk afterwards, and the record is not cleared,
so the remaining entry was never attempted. -/
theorem restore_not_independent_counterexample :
    (restoreOriginalConfig stC3).isOkB = false
    ∧ existsSync (restoreOriginalConfig stC3).stOf.fs ("b.txt") = true
    ∧ (restoreOriginalConfig stC3).stOf.record = stC3.record := by
  refine ⟨rfl, rfl, rfl⟩

/-- Claim C3 amended: restore attempts the recorded entries in order and
the first entry whose restoration throws aborts the loop: the state at
the raise is exactly the state reached after the successful prefix, the
entries after the failing one are not attempted, and the record is kept. -/
theorem restore_aborts_on_error (fs fs1 : FS) (r1 r2 : List (String × Option String))
    (e : String × Option String)
    (h1 : restoreLoop fs r1 = FsOut.ok fs1)
    (h2 : restoreEntry fs1 e = Except.error ()) :
    restoreOriginalConfig { record := r1 ++ e :: r2, fs := fs } =
      Outcome.err { record := r1 ++ e :: r2, fs := fs1 } := by
  unfold restoreOriginalConfig
  simp only
  rw [restoreLoop_ok_append r1 fs fs1 (e :: r2) h1]
  simp only [restoreLoop, h2]

/-- Witness for the amended C3 at a concrete two-entry record. -/
theorem restore_aborts_on_error_witness :
    restoreOriginalConfig
        { record := [] ++ (("a.txt"), some ("orig")) :: [(("b.txt"), (none : Option String))],
          fs := fsC3 } =
      Outcome.err
        { record := [] ++ (("a.txt"), some ("orig")) :: [(("b.txt"), (none : Option String))],
          fs := fsC3 } :=
  restore_aborts_on_error fsC3 fsC3 [] [(("b.txt"), none)] (("a.txt"), some ("orig")) rfl rfl

/-- Claim C4 counterexample: invoking configure a second time without an
intervening restore is not rejected: the call succeeds, and it silently
overwrites the recorded original with the already-patched content, which
differs from the true original. -/
theorem double_configure_not_rejected :
    (configureBasePath genNextAny profViteW ("/previews") st1W).isOkB = true
    ∧ (configureBasePath genNextAny profViteW ("/previews") st1W).stOf.record =
        [(("vite.config.js"), some vitePatchedV)]
    ∧ ¬(vitePatchedV = viteOrigV) := by
  refine ⟨rfl, rfl, by decide⟩

/-- Claim C4 amended: configure never inspects the outstanding record in
order to reject a call; whether it raises depends only on the
filesystem, so a second invocation proceeds exactly as a first. -/
theorem configure_ignores_outstanding_record (genNext : String → Option String → String)
    (profile : BuildProfile) (bp : String) (fs : FS)
    (r r2 : List (String × Option String)) :
    (configureBasePath genNext profile bp { record := r, fs := fs }).isOkB =
      (configureBasePath genNext profile bp { record := r2, fs := fs }).isOkB := by
  unfold configureBasePath
  cases profile.framework with
  | next =>
    unfold configureNextJsBasePath
    simp only
    cases hf : nextConfigFiles.find? (fun f => existsSync fs f) with
    | some cf =>
      try simp only [hf]
      cases hr : readFileSync fs cf with
      | error e => try simp only [hr]; rfl
      | ok orig =>
        try simp only [hr]
        cases hw : writeFileSync fs cf (genNext bp (some orig)) with
        | error e => try simp only [hw]; rfl
        | ok fs2 => try simp only [hw]; rfl
    | none =>
      try simp only [hf]
      cases hw : writeFileSync fs ("next.config.js") (genNext bp none) with
      | error e => try simp only [hw]; rfl
      | ok fs2 => try simp only [hw]; rfl
  | vite =>
    unfold configureViteBasePath
    simp only
    cases hf : viteConfigFilesPatch.find? (fun f => existsSync fs f) with
    | some cf =>
      try simp only [hf]
      cases hr : readFileSync fs cf with
      | error e => try simp only [hr]; rfl
      | ok orig =>
        try simp only [hr]
        cases hw : writeFileSync fs cf
            (generateViteConfig bp (strEndsWith cf (".ts")) (some orig)) with
        | error e => try simp only [hw]; rfl
        | ok fs2 => try simp only [hw]; rfl
    | none =>
      try simp only [hf]
      cases hw : writeFileSync fs
          (if existsSync fs ("tsconfig.json") then ("vite.config.ts") else ("vite.config.js"))
          (generateViteConfig bp (existsSync fs ("tsconfig.json")) none) with
      | error e => try simp only [hw]; rfl
      | ok fs2 => try simp only [hw]; rfl
  | react =>
    unfold configureReactBasePath
    simp only
    cases hex : existsSync fs (".env.local") with
    | true =>
      try simp only [hex]
      cases hr : readFileSync fs (".env.local") with
      | error e => try simp only [hr]; rfl
      | ok orig =>
        try simp only [hr]
        cases hw : writeFileSync fs (".env.local") (generateReactEnvConfig bp orig) with
        | error e => try simp only [hw]; rfl
        | ok fs2 => try simp only [hw]; rfl
    | false =>
      try simp only [hex]
      cases hw : writeFileSync fs (".env.local") (generateReactEnvConfig bp ("")) with
      | error e => try simp only [hw]; rfl
      | ok fs2 => try simp only [hw]; rfl
  | generic => rfl

/-- Claim C7: on a directory whose vite.config.js is exactly the
defineConfig call with an empty plugins list, configure with base path
/previews succeeds, the rewritten file contains the injected base field
and still contains the original plugins entry, and restore returns the
file to exactly the original text. -/
theorem vite_end_to_end_scenario :
    (configureBasePath genNextAny profViteW ("/previews") stW1).isOkB = true
    ∧ fileContent? st1W.fs ("vite.config.js") = some vitePatchedV
    ∧ jsIncludes vitePatchedV ("base: \x27/previews\x27") = true
    ∧ jsIncludes vitePatchedV ("plugins: []") = true
    ∧ (restoreOriginalConfig st1W).isOkB = true
    ∧ fileContent? st2W.fs ("vite.config.js") = some viteOrigV := by
  refine ⟨rfl, rfl, by decide, by decide, rfl, rfl⟩

/-- Claim C2 counterexample: a NEXT project whose config file text is
empty, hence contains no static-export marker, still yields a profile
with requiresExport = true, refuting the claimed equivalence. -/
theorem requiresExport_without_marker :
    readFileSync fsC2 ("next.config.js") = Except.ok ("")
    ∧ searchHit outputExportToks ("") = false
    ∧ (detectBuildConfig fsC2 pjPlain).requiresExport = true := by
  refine ⟨rfl, rfl, rfl⟩

/-- Claim C2 amended: for every NEXT project the detector sets
requiresExport to true unconditionally, whether or not the config text
contains the static-export marker. -/
theorem requiresExport_always_true (fs : FS) (pj : PackageJson)
    (h : nextSigB fs = true) : (detectBuildConfig fs pj).requiresExport = true := by
  have h1 : (findNextConfig fs).isSome = true := by rw [findNextConfig_isSome, h]
  obtain ⟨p, hp⟩ := Option.isSome_iff_exists.mp h1
  unfold detectBuildConfig
  rw [hp]
  exact (findNextConfig_fields fs p hp).2

/-- Witness for the amended C2. -/
theorem requiresExport_always_true_witness :
    nextSigB fsC2 = true ∧ (detectBuildConfig fsC2 pjPlain).requiresExport = true :=
  ⟨rfl, requiresExport_always_true fsC2 pjPlain rfl⟩

/-- Claim C5: detection order is strictly NEXT, then VITE, then
REACT_CRA, then GENERIC, first match wins; in particular a directory
satisfying both the NEXT and the VITE signatures is classified NEXT. -/
theorem detection_priority_order (fs : FS) (pj : PackageJson) :
    (nextSigB fs = true → (detectBuildConfig fs pj).framework = Framework.next)
    ∧ (nextSigB fs = false → viteSigB fs pj = true →
        (detectBuildConfig fs pj).framework = Framework.vite)
    ∧ (nextSigB fs = false → viteSigB fs pj = false → reactSigB pj = true →
        (detectBuildConfig fs pj).framework = Framework.react)
    ∧ (nextSigB fs = false → viteSigB fs pj = false → reactSigB pj = false →
        (detectBuildConfig fs pj).framework = Framework.generic) := by
  refine ⟨?_, ?_, ?_, ?_⟩
  · intro hn
    have h1 : (findNextConfig fs).isSome = true := by rw [findNextConfig_isSome, hn]
    obtain ⟨p, hp⟩ := Option.isSome_iff_exists.mp h1
    unfold detectBuildConfig
    rw [hp]
    exact (findNextConfig_fields fs p hp).1
  · intro hn hv
    have h1 : (findViteConfig fs pj).isSome = true := by rw [findViteConfig_isSome, hv]
    obtain ⟨p, hp⟩ := Option.isSome_iff_exists.mp h1
    unfold detectBuildConfig
    rw [findNextConfig_none fs hn, hp]
    exact findViteConfig_fields fs pj p hp
  · intro hn hv hre
    have h1 : (findReactConfig fs pj).isSome = true := by rw [findReactConfig_isSome, hre]
    obtain ⟨p, hp⟩ := Option.isSome_iff_exists.mp h1
    unfold detectBuildConfig
    rw [findNextConfig_none fs hn, findViteConfig_none fs pj hv, hp]
    exact findReactConfig_fields fs pj p hp
  · intro hn hv hre
    unfold detectBuildConfig
    rw [findNextConfig_none fs hn, findViteConfig_none fs pj hv,
      findReactConfig_none fs pj hre]
    exact findGenericConfig_framework fs pj

/-- Witness for C5: a directory holding both next.config.js and
vite.config.js is classified NEXT. -/
theorem detection_priority_order_witness :
    nextSigB fsC5 = true ∧ viteSigB fsC5 pjPlain = true
    ∧ (detectBuildConfig fsC5 pjPlain).framework = Framework.next :=
  ⟨rfl, rfl, (detection_priority_order fsC5 pjPlain).1 rfl⟩

/-- Claim C6: for a NEXT project whose found config file reads
successfully, the output directory is resolved in order: the distDir
capture if present; otherwise, when the static-export marker is
present, the outDir capture if present, else out; otherwise .next. -/
theorem next_outputDir_resolution (fs : FS) (pj : PackageJson) (cf content : String)
    (hcf : nextConfigFiles.find? (fun f => existsSync fs f) = some cf)
    (hread : readFileSync fs cf = Except.ok content) :
    (detectBuildConfig fs pj).outputDir =
      (match searchCap distDirToks content with
       | some v => v
       | none =>
         if searchHit outputExportToks content then
           match searchCap outDirToks content with
           | some v => v
           | none => ("out")
         else (".next")) := by
  unfold detectBuildConfig findNextConfig
  rw [hcf]
  simp only
  rw [jsOr_of_ne _ _ (parseNextConfig_ne fs cf)]
  unfold parseNextConfig
  rw [hread]

/-- Witness for C6: a config text holding both the static-export marker
and a custom distDir resolves to the distDir value custom-out. -/
theorem next_outputDir_resolution_witness :
    searchCap distDirToks nextCfgC6 = some ("custom-out")
    ∧ searchHit outputExportToks nextCfgC6 = true
    ∧ (detectBuildConfig fsC6 pjPlain).outputDir = ("custom-out") := by
  refine ⟨by decide, by decide, ?_⟩
  rw [next_outputDir_resolution fsC6 pjPlain ("next.config.js") nextCfgC6 rfl rfl]
  decide

/-- Claim C8: a vite config file that exists but cannot be read makes
detection fall back to the default dist output directory instead of
raising, while the detection pipeline as a whole raises exactly when
loading the package manifest raises. -/
theorem detection_failure_policy (parseJson : String → Option PackageJson)
    (fs : FS) (pj : PackageJson) :
    (∀ f, nextSigB fs = false →
       viteConfigFiles.find? (fun g => existsSync fs g) = some f →
       readFileSync fs f = Except.error () →
       (detectBuildConfig fs pj).framework = Framework.vite ∧
         (detectBuildConfig fs pj).outputDir = ("dist"))
    ∧ ((detectPipeline parseJson fs) = Except.error () ↔
        loadPackageJson parseJson fs = Except.error ()) := by
  constructor
  · intro f hn hvf hread
    have h1 : findNextConfig fs = none := findNextConfig_none fs hn
    unfold detectBuildConfig
    rw [h1]
    unfold findViteConfig
    rw [hvf]
    simp only
    have h2 : parseViteConfig fs f = ("dist") := by
      unfold parseViteConfig
      rw [hread]
    constructor
    · trivial
    · show jsOr (parseViteConfig fs f) ("dist") = ("dist")
      rw [h2]
      decide
  · unfold detectPipeline
    cases h : loadPackageJson parseJson fs with
    | error e => simp [h]
    | ok pj2 => simp [h]

/-- Witness for C8: a directory whose vite.config.js exists but is
unreadable detects as VITE with outputDir dist, and its pipeline does
not raise because package.json loads. -/
theorem detection_failure_policy_witness :
    ((detectBuildConfig fsC8 pjPlain).framework = Framework.vite
      ∧ (detectBuildConfig fsC8 pjPlain).outputDir = ("dist"))
    ∧ ((detectPipeline parseJsonW fsC8) = Except.error () ↔
        loadPackageJson parseJsonW fsC8 = Except.error ()) :=
  ⟨(detection_failure_policy parseJsonW fsC8 pjPlain).1 ("vite.config.js") rfl rfl rfl,
   (detection_failure_policy parseJsonW fsC8 pjPlain).2⟩

theorem detect_vite_found (fs : FS) (pj : PackageJson) (cf : String)
    (hn : nextSigB fs = false)
    (hfv : viteConfigFiles.find? (fun f => existsSync fs f) = some cf) :
    (detectBuildConfig fs pj).framework = Framework.vite
    ∧ (detectBuildConfig fs pj).configFile = some cf
    ∧ (detectBuildConfig fs pj).outputDir = parseViteConfig fs cf := by
  have hfn : findNextConfig fs = none := findNextConfig_none fs hn
  unfold detectBuildConfig
  rw [hfn]
  unfold findViteConfig
  rw [hfv]
  simp only
  refine ⟨trivial, trivial, ?_⟩
  exact jsOr_of_ne _ _ (parseViteConfig_ne fs cf)

/-- Claim C10 counterexample: with vitest.config.js present, no NEXT
config, but also a vite.config.js present, the detector classifies VITE
yet scans vite.config.js, not the vitest file, so the output directory
differs from the one the vitest file text declares. -/
theorem vitest_counts_as_vite_counterexample :
    existsSync fsC10 ("vitest.config.js") = true
    ∧ nextSigB fsC10 = false
    ∧ pjPlain.devDependenciesVite = false
    ∧ (detectBuildConfig fsC10 pjPlain).outputDir = ("aaa")
    ∧ parseViteConfig fsC10 ("vitest.config.js") = ("bbb")
    ∧ ¬((detectBuildConfig fsC10 pjPlain).outputDir =
        parseViteConfig fsC10 ("vitest.config.js")) := by
  refine ⟨rfl, rfl, rfl, rfl, rfl, by decide⟩

/-- Claim C10 amended: with no recognized NEXT config present, the
detector classifies the project VITE as soon as one of the four
recognized names exists and scans the first existing one in the order
vite.config.js, vite.config.ts, vitest.config.js, vitest.config.ts; in
particular a vitest config alone suffices, vitest.config.js taking
priority over vitest.config.ts, with no assumption on the vite
development dependency. -/
theorem vitest_counts_as_vite (fs : FS) (pj : PackageJson)
    (hn : nextSigB fs = false) :
    (existsSync fs ("vite.config.js") = true →
      (detectBuildConfig fs pj).framework = Framework.vite
      ∧ (detectBuildConfig fs pj).configFile = some ("vite.config.js")
      ∧ (detectBuildConfig fs pj).outputDir = parseViteConfig fs ("vite.config.js"))
    ∧ (existsSync fs ("vite.config.js") = false →
       existsSync fs ("vite.config.ts") = true →
      (detectBuildConfig fs pj).framework = Framework.vite
      ∧ (detectBuildConfig fs pj).configFile = some ("vite.config.ts")
      ∧ (detectBuildConfig fs pj).outputDir = parseViteConfig fs ("vite.config.ts"))
    ∧ (existsSync fs ("vite.config.js") = false →
       existsSync fs ("vite.config.ts") = false →
       existsSync fs ("vitest.config.js") = true →
      (detectBuildConfig fs pj).framework = Framework.vite
      ∧ (detectBuildConfig fs pj).configFile = some ("vitest.config.js")
      ∧ (detectBuildConfig fs pj).outputDir = parseViteConfig fs ("vitest.config.js"))
    ∧ (existsSync fs ("vite.config.js") = false →
       existsSync fs ("vite.config.ts") = false →
       existsSync fs ("vitest.config.js") = false →
       existsSync fs ("vitest.config.ts") = true →
      (detectBuildConfig fs pj).framework = Framework.vite
      ∧ (detectBuildConfig fs pj).configFile = some ("vitest.config.ts")
      ∧ (detectBuildConfig fs pj).outputDir = parseViteConfig fs ("vitest.config.ts")) := by
  refine ⟨?_, ?_, ?_, ?_⟩
  · intro h1
    refine detect_vite_found fs pj ("vite.config.js") hn ?_
    unfold viteConfigFiles
    simp [List.find?, h1]
  · intro h1 h2
    refine detect_vite_found fs pj ("vite.config.ts") hn ?_
    unfold viteConfigFiles
    simp [List.find?, h1, h2]
  · intro h1 h2 h3
    refine detect_vite_found fs pj ("vitest.config.js") hn ?_
    unfold viteConfigFiles
    simp [List.find?, h1, h2, h3]
  · intro h1 h2 h3 h4
    refine detect_vite_found fs pj ("vitest.config.ts") hn ?_
    unfold viteConfigFiles
    simp [List.find?, h1, h2, h3, h4]

/-- Witness for the amended C10: a directory holding only
vitest.config.js and a directory holding only vitest.config.ts, both
with no vite dependency declared, are classified VITE with the vitest
file itself scanned for the output directory. -/
theorem vitest_counts_as_vite_witness :
    nextSigB fsC10w = false ∧ pjPlain.devDependenciesVite = false
    ∧ (detectBuildConfig fsC10w pjPlain).framework = Framework.vite
    ∧ (detectBuildConfig fsC10w pjPlain).configFile = some ("vitest.config.js")
    ∧ (detectBuildConfig fsC10w pjPlain).outputDir =
        parseViteConfig fsC10w ("vitest.config.js")
    ∧ (detectBuildConfig fsC10t pjPlain).framework = Framework.vite
    ∧ (detectBuildConfig fsC10t pjPlain).configFile = some ("vitest.config.ts")
    ∧ (detectBuildConfig fsC10t pjPlain).outputDir =
        parseViteConfig fsC10t ("vitest.config.ts") := by
  have h3 := (vitest_counts_as_vite fsC10w pjPlain rfl).2.2.1 rfl rfl rfl
  have h4 := (vitest_counts_as_vite fsC10t pjPlain rfl).2.2.2 rfl rfl rfl rfl
  exact ⟨rfl, rfl, h3.1, h3.2.1, h3.2.2, h4.1, h4.2.1, h4.2.2⟩
